import Mathlib

/-!
Verification development for `src/main.py` of belo-app/exodus: a bulk
transfer pipeline that copies identity-verification records and their media
from an S3 bucket into a local per-record directory layout.

The embedding models Python strings as lists of characters, the local
filesystem as explicit state (directory-existence and file-content maps),
and every fallible external effect (role assumption, S3 fetch, HTTP fetch,
`os.makedirs`, JSON parse, `json.dump`) as an oracle supplied in an
environment record.  Functions are translated control-path by control-path
from the source; escaping Python exceptions are modelled with `Except`.
-/

namespace Exodus

/-- Python strings are modelled as lists of characters. -/
abbrev Str := List Char

/-- Python `str.split(sep)` for a one-character separator: splits at every
occurrence of `c`; the result always has at least one (possibly empty)
piece, exactly as in Python. -/
def splitOnChar (c : Char) : Str → List Str
  | [] => [[]]
  | x :: xs =>
    let r := splitOnChar c xs
    if x = c then [] :: r
    else (x :: r.headD []) :: r.tail

/-- Python `os.path.basename` for POSIX paths: the part after the last `/`. -/
def basename (s : Str) : Str := (splitOnChar '/' s).getLastD []

/-- Python `os.path.join` for the two-argument POSIX form used in the source:
an absolute second component wins; otherwise the parts are joined with one
`/` (none added when the first part is empty or already ends in `/`, and a
trailing `/` appears when the second part is empty). -/
def pathJoin (a b : Str) : Str :=
  if b.head? = some '/' then b
  else if a = [] then b
  else if a.getLast? = some '/' then a ++ b
  else a ++ '/' :: b

/-- ID extraction of `process_verification` (src/main.py line 237):
`filename.split('-')[1].split('.')[0]`; `none` marks the `IndexError` path
taken when an index is out of range. -/
def extractId (filename : Str) : Option Str :=
  (splitOnChar '-' filename)[1]?.bind fun s => (splitOnChar '.' s)[0]?

/-- Splits a string at the first occurrence of `c`, returning the pieces
before and after it, or `none` when `c` does not occur. -/
def splitFirst (c : Char) : Str → Option (Str × Str)
  | [] => none
  | x :: xs =>
    if x = c then some ([], xs)
    else (splitFirst c xs).map fun p => (x :: p.1, p.2)

/-- Drops everything from the first occurrence of `c` on (including `c`). -/
def stripAfter (c : Char) (u : Str) : Str :=
  match splitFirst c u with
  | none => u
  | some p => p.1

/-- Characters allowed in a URL scheme by `urllib.parse`. -/
def schemeChar (ch : Char) : Bool :=
  ch.isAlpha || ch.isDigit || ch = '+' || ch = '-' || ch = '.'

/-- Scheme removal step of Python `urllib.parse.urlsplit`: when the text
before the first `:` is a nonempty valid scheme, everything up to and
including that `:` is dropped. -/
def stripScheme (u : Str) : Str :=
  match splitFirst ':' u with
  | none => u
  | some p =>
    if p.1 ≠ [] ∧ (p.1.headD ' ').isAlpha ∧ p.1.all schemeChar then p.2 else u

/-- Netloc removal step of Python `urllib.parse.urlsplit`: after a leading
`//`, the authority extends up to the next `/`, `?` or `#`. -/
def dropNetloc (u : Str) : Str :=
  match u with
  | '/' :: '/' :: rest => rest.dropWhile fun ch => ch != '/' && ch != '?' && ch != '#'
  | _ => u

/-- Joins pieces with the single character `c` between them. -/
def joinChar (c : Char) : List Str → Str
  | [] => []
  | [s] => s
  | s :: rest => s ++ c :: joinChar c rest

/-- Python `urllib.parse._splitparams` applied to a path: a `;params` suffix
of the final `/`-segment is dropped. -/
def stripParams (u : Str) : Str :=
  let parts := splitOnChar '/' u
  joinChar '/' (parts.dropLast ++ [stripAfter ';' (parts.getLastD [])])

/-- Path component of Python `urllib.parse.urlparse`: strip the scheme, the
`//`-authority, the `#fragment`, the `?query`, and the `;params` of the last
segment, in the order `urlsplit` does. -/
def urlparsePath (url : Str) : Str :=
  stripParams (stripAfter '?' (stripAfter '#' (dropNetloc (stripScheme url))))

/-- Extension part of Python `os.path.splitext`: the suffix of the basename
starting at its last dot, empty when the basename has no dot or nothing but
leading dots before it. -/
def splitextExt (p : Str) : Str :=
  match splitFirst '.' (basename p).reverse with
  | none => []
  | some q => if q.2.any (fun ch => ch != '.') then '.' :: q.1.reverse else []

/-- Fixed asset filename `doc_front.jpg` used at src/main.py line 271. -/
def docFrontName : Str := "doc_front.jpg".data

/-- Fixed asset filename `doc_back.jpg` used at src/main.py line 276. -/
def docBackName : Str := "doc_back.jpg".data

/-- Fixed asset filename `selfie.jpg` used at src/main.py line 286. -/
def selfieName : Str := "selfie.jpg".data

/-- Fixed asset filename `sprite.jpg` used at src/main.py line 290. -/
def spriteName : Str := "sprite.jpg".data

/-- Stem `video` of the video asset filename built at src/main.py line 297. -/
def videoBase : Str := "video".data

/-- Name `data.json` of the normalized record copy (src/main.py line 302). -/
def dataJsonName : Str := "data.json".data

/-- Video filename extension rule of src/main.py lines 295-296:
`os.path.splitext(urlparse(video_url).path)[1] or '.mp4'`. -/
def videoExt (u : Str) : Str :=
  let e := splitextExt (urlparsePath u)
  if e = [] then ".mp4".data else e

/-- JSON step `data` object: the three optional URL fields that
`process_verification` reads (src/main.py lines 285-298). -/
structure StepData where
  selfieUrl : Option Str
  spriteUrl : Option Str
  videoUrl : Option Str
  deriving DecidableEq

/-- One entry of the record's `steps` array; its `data` key is optional. -/
structure Step where
  data : Option StepData
  deriving DecidableEq

/-- One entry of the record's `documents` array; its `photos` key is an
optional array of photo URLs. -/
structure Document where
  photos : Option (List Str)
  deriving DecidableEq

/-- Parsed verification record: the `documents` and `steps` keys are both
optional (src/main.py lines 265 and 280 test for their presence). -/
structure RecordData where
  documents : Option (List Document)
  steps : Option (List Step)
  deriving DecidableEq

/-- Error kinds of the `'error'` outcome dictionaries of
`process_verification`, one per distinct message. -/
inductive ErrKind where
  | invalidFilename
  | mkdirFailed
  | invalidJson
  | readFailed
  | copyFailed
  deriving DecidableEq

/-- Outcome of `process_verification`, reduced to its `status` tag; the
constructor `someFailed` models the `'partial_success'` status string. -/
inductive VOutcome where
  | success
  | someFailed
  | skipped
  | error (e : ErrKind)
  deriving DecidableEq

/-- Local filesystem state as consulted and updated by the record assembler:
path existence for directories and byte contents for files. -/
structure Fs where
  dirs : Str → Bool
  files : Str → Option Str

/-- Oracles for the record assembler's external effects: success of
`os.makedirs`, JSON parsing of file bytes, success and body of each
`download_url` HTTP fetch (keyed by URL), success of the final `json.dump`
(keyed by destination path), and the compact serializer. -/
structure Env where
  mkdirOk : Str → Bool
  parse : Str → Except Unit RecordData
  fetchOk : Str → Bool
  fetchBody : Str → Str
  dumpOk : Str → Bool
  serialize : RecordData → Str

/-- Overwrites (or creates) the file at `dest` with contents `v`. -/
def setFile (fs : Fs) (dest v : Str) : Fs :=
  { fs with files := fun p => if p = dest then some v else fs.files p }

/-- Marks the directory `d` as existing, as `os.makedirs` does. -/
def addDir (fs : Fs) (d : Str) : Fs :=
  { fs with dirs := fun p => if p = d then true else fs.dirs p }

/-- Embedding of `download_url` (src/main.py lines 215-224): on success the
whole body fetched from `url` is written to `destination_path` and `True` is
returned; on any error `False` is returned and the filesystem is unchanged. -/
def download_url (env : Env) (fs : Fs) (url dest : Str) : Bool × Fs :=
  if env.fetchOk url then (true, setFile fs dest (env.fetchBody url))
  else (false, fs)

/-- One optional-field fetch of the steps loop: download `u` (when present)
to the fixed name `nm` inside `vdir`, and-ing the success flag into the
accumulator, as src/main.py lines 285-291 do. -/
def maybeFetch (env : Env) (vdir : Str) (acc : Bool × Fs) (u : Option Str)
    (nm : Str) : Bool × Fs :=
  match u with
  | none => acc
  | some url =>
    let r := download_url env acc.2 url (pathJoin vdir nm)
    (acc.1 && r.1, r.2)

/-- Document-photo processing of src/main.py lines 265-277: when `photos`
exists and is nonempty, index 0 goes to `doc_front.jpg` and, when present,
index 1 goes to `doc_back.jpg`; any failed fetch clears the success flag. -/
def processDoc (env : Env) (vdir : Str) (acc : Bool × Fs) (doc : Document) :
    Bool × Fs :=
  match doc.photos with
  | none => acc
  | some [] => acc
  | some (p0 :: rest) =>
    let r1 := download_url env acc.2 p0 (pathJoin vdir docFrontName)
    let ok1 := acc.1 && r1.1
    match rest with
    | [] => (ok1, r1.2)
    | p1 :: _ =>
      let r2 := download_url env r1.2 p1 (pathJoin vdir docBackName)
      (ok1 && r2.1, r2.2)

/-- Step processing of src/main.py lines 280-298: each of `selfieUrl`,
`spriteUrl` and `videoUrl` present in the step's `data` is fetched to its
fixed name; the video name carries the URL-derived extension. -/
def processStep (env : Env) (vdir : Str) (acc : Bool × Fs) (st : Step) :
    Bool × Fs :=
  match st.data with
  | none => acc
  | some sd =>
    let a1 := maybeFetch env vdir acc sd.selfieUrl selfieName
    let a2 := maybeFetch env vdir a1 sd.spriteUrl spriteName
    match sd.videoUrl with
    | none => a2
    | some vu =>
      let r := download_url env a2.2 vu (pathJoin vdir (videoBase ++ videoExt vu))
      (a2.1 && r.1, r.2)

/-- Final commit step of src/main.py lines 300-314: re-read and re-parse the
source file and dump it compactly to `data.json`; any failure yields the
`'Failed to copy JSON file'` error, otherwise the status is `'success'` or
`'partial_success'` according to the accumulated download flag.  A failing
dump is modelled as leaving the filesystem unchanged. -/
def dumpJson (env : Env) (vdir json_path : Str) (acc : Bool × Fs) :
    VOutcome × Fs :=
  let dest := pathJoin vdir dataJsonName
  match acc.2.files json_path with
  | none => (VOutcome.error .copyFailed, acc.2)
  | some bytes2 =>
    match env.parse bytes2 with
    | .error _ => (VOutcome.error .copyFailed, acc.2)
    | .ok d2 =>
      if env.dumpOk dest then
        ((if acc.1 then VOutcome.success else VOutcome.someFailed),
          setFile acc.2 dest (env.serialize d2))
      else (VOutcome.error .copyFailed, acc.2)

/-- Asset fan-out and commit for one parsed record: the documents loop, then
the steps loop, then the `data.json` dump (src/main.py lines 263-314). -/
def assembleRecord (env : Env) (vdir json_path : Str) (fs0 : Fs)
    (data : RecordData) : VOutcome × Fs :=
  let a1 := (data.documents.getD []).foldl (processDoc env vdir) (true, fs0)
  let a2 := (data.steps.getD []).foldl (processStep env vdir) a1
  dumpJson env vdir json_path a2

/-- Inputs of `process_verification`: the `file_info` dictionary built by
`process_verification_files` (src/main.py lines 336-342). -/
structure VFileInfo where
  filename : Str
  origin_dir : Str
  destination_dir : Str

/-- Embedding of `process_verification` (src/main.py lines 227-314): extract
the ID from the filename (`IndexError` yields the invalid-filename error),
skip when the per-ID directory exists, create it, read and parse the source
JSON, fan out the asset downloads, and commit `data.json`. -/
def process_verification (env : Env) (fs : Fs) (fi : VFileInfo) :
    VOutcome × Fs :=
  match extractId fi.filename with
  | none => (VOutcome.error .invalidFilename, fs)
  | some vid =>
    let vdir := pathJoin fi.destination_dir vid
    if fs.dirs vdir then (VOutcome.skipped, fs)
    else if env.mkdirOk vdir then
      let fs0 := addDir fs vdir
      let json_path := pathJoin fi.origin_dir fi.filename
      match fs0.files json_path with
      | none => (VOutcome.error .readFailed, fs0)
      | some bytes =>
        match env.parse bytes with
        | .error _ => (VOutcome.error .invalidJson, fs0)
        | .ok data => assembleRecord env vdir json_path fs0 data
    else (VOutcome.error .mkdirFailed, fs)

/-- Remote calls observable during one `download_file` unit of work: the STS
`assume_role` credential exchange issued while constructing the S3 client
(src/main.py lines 56-82) and the single-object S3 fetch (line 110). -/
inductive DEvent where
  | assumeRole
  | getObject (key : Str) (path : Str)
  deriving DecidableEq

/-- Return value of `download_file`: `pyNone` is the bare `None` returned for
directory placeholders; the other constructors carry the `status` tag of the
returned dictionary, `errorRes` being the handled `'error'` status. -/
inductive DResult where
  | pyNone
  | skipped (path : Str)
  | downloaded (path : Str)
  | errorRes (path : Str)
  deriving DecidableEq

/-- Python exception escaping `download_file` despite its `except` clause:
the handler itself evaluates `file_key` (line 117) and `local_path` (line
118), names that are unbound when the exception was raised before their
assignments, so an `UnboundLocalError` propagates out of the function. -/
inductive PyExn where
  | unboundLocal
  deriving DecidableEq

/-- The `file_info` dictionary passed to `download_file`; each field is
`Option` because a dictionary access can raise `KeyError`. -/
structure SFileInfo where
  key : Option Str
  bucket : Option Str
  origin_dir : Option Str
  deriving DecidableEq

/-- Oracles for `download_file`: whether the process-wide S3 client is
already cached, whether constructing it (the STS role assumption) succeeds
when attempted, and the success and body of each S3 single-object fetch
(keyed by bucket and key). -/
structure DEnv where
  clientCached : Bool
  clientOk : Bool
  s3Ok : Str → Str → Bool
  s3Body : Str → Str → Str

/-- File contents of the local landing zone, as seen by `download_file`. -/
abbrev DFiles := Str → Option Str

/-- Embedding of `download_file` (src/main.py lines 85-118).  The unit first
acquires the shared S3 client (issuing the `assume_role` exchange when no
client is cached yet), derives the local filename from the key's basename,
returns `None` for directory placeholders, skips when the local path exists,
and otherwise fetches the object.  Any exception reaches the `except`
handler, which converts it to an `'error'` result when `file_key` and
`local_path` are both bound, and otherwise raises `UnboundLocalError`. -/
def download_file (env : DEnv) (files : DFiles) (fi : SFileInfo) :
    Except PyExn DResult × DFiles × List DEvent :=
  let ev0 : List DEvent := if env.clientCached then [] else [.assumeRole]
  if env.clientCached = false ∧ env.clientOk = false then
    (.error .unboundLocal, files, ev0)
  else
    match fi.key, fi.bucket, fi.origin_dir with
    | none, _, _ => (.error .unboundLocal, files, ev0)
    | some _, none, _ => (.error .unboundLocal, files, ev0)
    | some _, some _, none => (.error .unboundLocal, files, ev0)
    | some file_key, some bucket, some origin_dir =>
      let local_filename := basename file_key
      if local_filename = [] then (.ok .pyNone, files, ev0)
      else
        let local_path := pathJoin origin_dir local_filename
        if (files local_path).isSome then (.ok (.skipped local_path), files, ev0)
        else
          let ev1 := ev0 ++ [.getObject file_key local_path]
          if env.s3Ok bucket file_key then
            (.ok (.downloaded local_path),
              fun p => if p = local_path then some (env.s3Body bucket file_key)
                       else files p,
              ev1)
          else (.ok (.errorRes local_path), files, ev1)

/-- Whether a `download_file` return value is the bare `None`. -/
def isPyNone : DResult → Bool
  | .pyNone => true
  | _ => false

/-- Result collection loop of `download_origin_files` (src/main.py lines
189-197): `None` entries are dropped, every other result is kept. -/
def collectResults (rs : List DResult) : List DResult :=
  rs.filter fun r => !(isPyNone r)

/-- Sequential model of `pool.map(download_file, all_files)`: one result per
task, with an exception raised by any task aborting the whole map, as
`multiprocessing.Pool.map` re-raises it at collection time.  Workers are
independent processes, so each task is run against the same snapshot of the
environment and the landing-zone contents. -/
def poolMap (env : DEnv) (files : DFiles) :
    List SFileInfo → Except PyExn (List DResult)
  | [] => .ok []
  | fi :: rest =>
    match (download_file env files fi).1 with
    | .error e => .error e
    | .ok r =>
      match poolMap env files rest with
      | .error e => .error e
      | .ok rs => .ok (r :: rs)

/-- Pages of at most `ps` keys, as the `list_objects_v2` paginator yields
them with `PageSize` (a page size of `0` is treated as `1`); empty listings
yield no page, matching the `'Contents' in page` guard. -/
def chunks (ps : Nat) : List Str → List (List Str)
  | [] => []
  | x :: xs => (x :: xs.take (ps - 1)) :: chunks ps (xs.drop (ps - 1))
termination_by l => l.length
decreasing_by
  simp only [List.length_cons, List.length_drop]
  omega

/-- Page collection loop of `download_origin_files` (src/main.py lines
153-168): pages are appended to `all_files`; when `n != -1` and at least `n`
keys are collected, the list is truncated to the first `n` and the loop
breaks. -/
def collectLoop (n : Int) : List Str → List (List Str) → List Str
  | acc, [] => acc
  | acc, page :: rest =>
    let acc2 := acc ++ page
    if n ≠ -1 ∧ n ≤ (acc2.length : Int) then acc2.take n.toNat
    else collectLoop n acc2 rest

/-- Listing stage of `download_origin_files` (src/main.py lines 144-168) for
a namespace holding `objs`: when `n != -1` the paginator is configured with
`MaxItems = n`, capping the keys it yields across pages; the collection loop
then gathers pages, truncating at `n`.  The model covers the sentinel `-1`
and non-negative bounds, the only values the spec admits. -/
def collectAllFiles (objs : List Str) (n : Int) (pageSize : Nat) : List Str :=
  let limited := if n = -1 then objs else objs.take n.toNat
  collectLoop n [] (chunks pageSize limited)

/-- Example record file info with ID `abc123`, as built by
`process_verification_files`. -/
def fiA : VFileInfo where
  filename := "verify-abc123.json".data
  origin_dir := "origin".data
  destination_dir := "destination".data

/-- Per-ID destination directory of `fiA`. -/
def vdirA : Str := pathJoin "destination".data "abc123".data

/-- Source path of `fiA` inside the origin directory. -/
def jpA : Str := pathJoin "origin".data "verify-abc123.json".data

/-- Opaque source-file bytes used by witnesses. -/
def bytesA : Str := "rawbytes".data

/-- Record file info whose filename has an empty ID segment. -/
def fiEmptyId : VFileInfo where
  filename := "verify-.json".data
  origin_dir := "origin".data
  destination_dir := "destination".data

/-- Record file info whose filename has no `-` at all. -/
def fiMalformed : VFileInfo where
  filename := "malformed.json".data
  origin_dir := "origin".data
  destination_dir := "destination".data

/-- Environment whose parser always fails and whose other oracles succeed. -/
def envIdle : Env where
  mkdirOk := fun _ => true
  parse := fun _ => .error ()
  fetchOk := fun _ => true
  fetchBody := fun _ => []
  dumpOk := fun _ => true
  serialize := fun _ => []

/-- Filesystem on which every path exists as a directory and no file does. -/
def fsAll : Fs where
  dirs := fun _ => true
  files := fun _ => none

/-- Empty filesystem. -/
def fsNone : Fs where
  dirs := fun _ => false
  files := fun _ => none

/-- Filesystem whose only entry is the directory `destination/`, the path the
empty ID joins to. -/
def fsDest : Fs where
  dirs := fun p => p = "destination/".data
  files := fun _ => none

/-- Filesystem holding only the source bytes of `fiA`. -/
def fsJson : Fs where
  dirs := fun _ => false
  files := fun p => if p = jpA then some bytesA else none

/-- Two-photo document record used by the C8 witness. -/
def rec8 : RecordData where
  documents := some [{ photos := some ["http://a/front.jpg".data, "http://a/back.jpg".data] }]
  steps := none

/-- One-photo document record used by the C8 witness. -/
def rec8b : RecordData where
  documents := some [{ photos := some ["http://a/front.jpg".data] }]
  steps := none

/-- Record with a single video-only step, `.mov` URL, used by C9. -/
def rec9 : RecordData where
  documents := none
  steps := some
    [{ data := some
        { selfieUrl := none
        , spriteUrl := none
        , videoUrl := some "http://cdn.example.com/clips/a.mov".data } }]

/-- Record with two one-photo documents and two selfie-carrying steps, used
by C10. -/
def rec10 : RecordData where
  documents := some [{ photos := some ["http://a/d1.jpg".data] },
                     { photos := some ["http://a/d2.jpg".data] }]
  steps := some
    [{ data := some
        { selfieUrl := some "http://a/s1.jpg".data
        , spriteUrl := none
        , videoUrl := none } },
     { data := some
        { selfieUrl := some "http://a/s2.jpg".data
        , spriteUrl := none
        , videoUrl := none } }]

/-- Assembler environment that parses everything to `rec8`, with every fetch
succeeding and returning the URL itself as body. -/
def env8 : Env where
  mkdirOk := fun _ => true
  parse := fun _ => .ok rec8
  fetchOk := fun _ => true
  fetchBody := fun u => u
  dumpOk := fun _ => true
  serialize := fun _ => []

/-- Variant of `env8` parsing to the one-photo record `rec8b`. -/
def env8b : Env := { env8 with parse := fun _ => .ok rec8b }

/-- Variant of `env8` parsing to the video record `rec9`. -/
def env9 : Env := { env8 with parse := fun _ => .ok rec9 }

/-- Variant of `env8` parsing to the duplicate-entry record `rec10`. -/
def env10 : Env := { env8 with parse := fun _ => .ok rec10 }

/-- Well-formed transfer task for the key `data/x.json`. -/
def fiS : SFileInfo where
  key := some "data/x.json".data
  bucket := some "bkt".data
  origin_dir := some "origin".data

/-- Landing zone already holding `origin/x.json`. -/
def filesX : DFiles :=
  fun p => if p = pathJoin "origin".data "x.json".data then some "old".data else none

/-- Empty landing zone. -/
def filesNone : DFiles := fun _ => none

/-- Worker environment with no cached client and a succeeding client
construction. -/
def envD6 : DEnv where
  clientCached := false
  clientOk := true
  s3Ok := fun _ _ => true
  s3Body := fun _ _ => []

/-- Worker environment with a cached client. -/
def envD2c : DEnv := { envD6 with clientCached := true }

/-- Worker environment in which the client construction fails. -/
def envD5 : DEnv := { envD6 with clientOk := false }

/-- Three-task batch: two regular keys around a directory placeholder. -/
def fisW : List SFileInfo :=
  [ { key := some "data/a.json".data
    , bucket := some "bkt".data
    , origin_dir := some "origin".data }
  , { key := some "data/sub/".data
    , bucket := some "bkt".data
    , origin_dir := some "origin".data }
  , { key := some "data/b.json".data
    , bucket := some "bkt".data
    , origin_dir := some "origin".data } ]

/-- Expected `pool.map` results for `fisW` on an empty landing zone. -/
def rsW : List DResult :=
  [ .downloaded (pathJoin "origin".data "a.json".data)
  , .pyNone
  , .downloaded (pathJoin "origin".data "b.json".data) ]

/-- Twelve-key namespace used by the C7 witness. -/
def objs12 : List Str := List.replicate 12 "key".data

theorem ne_of_head {b c : Str} {x y : Char} (hx : b.head? = some x)
    (hy : c.head? = some y) (hxy : x ≠ y) : b ≠ c := by
  intro h
  subst h
  rw [hy] at hx
  exact hxy (Option.some.inj hx.symm)

theorem pathJoin_ne (a : Str) {b c : Str} (hb : b.head? ≠ some '/')
    (hc : c.head? ≠ some '/') (hbc : b ≠ c) : pathJoin a b ≠ pathJoin a c := by
  unfold pathJoin
  rw [if_neg hb, if_neg hc]
  by_cases ha : a = []
  · rw [if_pos ha, if_pos ha]; exact hbc
  · rw [if_neg ha, if_neg ha]
    by_cases hl : a.getLast? = some '/'
    · rw [if_pos hl, if_pos hl]
      intro h
      exact hbc (List.append_cancel_left h)
    · rw [if_neg hl, if_neg hl]
      intro h
      have h2 := List.append_cancel_left h
      injection h2 with _ h3
      exact hbc h3

theorem videoBase_append_head (e : Str) : (videoBase ++ e).head? = some 'v' := rfl

theorem pathJoin_video_ne (a e : Str) {c : Str} (hc : c.head? ≠ some '/')
    (hcv : c.head? ≠ some 'v') : pathJoin a c ≠ pathJoin a (videoBase ++ e) := by
  apply pathJoin_ne a hc
  · rw [videoBase_append_head]; simp
  · intro h
    apply hcv
    rw [h, videoBase_append_head]

theorem setFile_files_self (fs : Fs) (d v : Str) :
    (setFile fs d v).files d = some v := by
  simp [setFile]

theorem setFile_files_ne (fs : Fs) (d v p : Str) (h : p ≠ d) :
    (setFile fs d v).files p = fs.files p := by
  simp [setFile, h]

theorem splitOnChar_of_not_mem {c : Char} :
    ∀ {s : Str}, c ∉ s → splitOnChar c s = [s]
  | [], _ => rfl
  | x :: xs, h => by
    have hx : ¬(x = c) := fun e => h (by rw [e]; exact List.mem_cons_self c xs)
    have ih := splitOnChar_of_not_mem (s := xs)
      (fun hm => h (List.mem_cons_of_mem x hm))
    simp only [splitOnChar, ih, if_neg hx]
    rfl

theorem extractId_of_no_dash {s : Str} (h : '-' ∉ s) : extractId s = none := by
  unfold extractId
  rw [splitOnChar_of_not_mem h]
  rfl

/-- C1: when the per-ID destination directory already exists,
`process_verification` returns the skipped outcome and the filesystem —
directory set and every file's bytes — is returned unchanged: no asset is
fetched, no `data.json` is written, nothing in the existing directory is
touched. -/
theorem c1_preexisting_dir_skips (env : Env) (fs : Fs) (fi : VFileInfo)
    (vid : Str)
    (hid : extractId fi.filename = some vid)
    (hdir : fs.dirs (pathJoin fi.destination_dir vid) = true) :
    process_verification env fs fi = (VOutcome.skipped, fs) := by
  unfold process_verification
  rw [hid]
  simp [hdir]

/-- C1 witness: a concrete record whose directory pre-exists is skipped with
the filesystem returned as is. -/
theorem c1_witness :
    process_verification envIdle fsAll fiA = (VOutcome.skipped, fsAll) :=
  c1_preexisting_dir_skips envIdle fsAll fiA ("abc123".data) (by decide) rfl

/-- C3 counterexample: the filename `verify-.json` has an empty ID segment,
yet `process_verification` raises no `IndexError`: it extracts the empty ID,
joins it to the path `destination/`, finds that path existing and returns
the skipped outcome — not the invalid-filename error the claim requires. -/
theorem c3_counterexample :
    extractId fiEmptyId.filename = some [] ∧
    process_verification envIdle fsDest fiEmptyId = (VOutcome.skipped, fsDest) ∧
    (process_verification envIdle fsDest fiEmptyId).1 ≠
      VOutcome.error ErrKind.invalidFilename :=
  ⟨by decide, rfl, by decide⟩

/-- C3 amended: a filename with no `-` at all (so that `split('-')` has one
piece and index 1 raises `IndexError`) yields the invalid-filename error and
an unchanged filesystem — no directory is created; a filename whose ID
segment is merely empty, such as `verify-.json`, is not rejected (see the
counterexample). -/
theorem c3_no_dash_rejected (env : Env) (fs : Fs) (fi : VFileInfo)
    (h : '-' ∉ fi.filename) :
    process_verification env fs fi =
      (VOutcome.error ErrKind.invalidFilename, fs) := by
  unfold process_verification
  rw [extractId_of_no_dash h]

/-- C3 witness: `malformed.json` is rejected with the invalid-filename
error and no directory creation. -/
theorem c3_witness :
    process_verification envIdle fsNone fiMalformed =
      (VOutcome.error ErrKind.invalidFilename, fsNone) :=
  c3_no_dash_rejected envIdle fsNone fiMalformed (by decide)

/-- C4: with a valid filename, a not-yet-existing per-ID directory and a
source file that is missing or fails to parse, `process_verification`
creates the directory, returns a read or parse error, leaves the new (empty)
directory in place — file contents are untouched and nothing is cleaned up —
and a second call on the same record then yields the skipped outcome. -/
theorem c4_parse_failure_leaves_dir (env : Env) (fs : Fs) (fi : VFileInfo)
    (vid : Str)
    (hid : extractId fi.filename = some vid)
    (hdir : fs.dirs (pathJoin fi.destination_dir vid) = false)
    (hmk : env.mkdirOk (pathJoin fi.destination_dir vid) = true)
    (hbad : ∀ b, fs.files (pathJoin fi.origin_dir fi.filename) = some b →
      env.parse b = Except.error ()) :
    (process_verification env fs fi =
        (VOutcome.error ErrKind.readFailed,
          addDir fs (pathJoin fi.destination_dir vid)) ∨
      process_verification env fs fi =
        (VOutcome.error ErrKind.invalidJson,
          addDir fs (pathJoin fi.destination_dir vid))) ∧
    (addDir fs (pathJoin fi.destination_dir vid)).files = fs.files ∧
    process_verification env (addDir fs (pathJoin fi.destination_dir vid)) fi =
      (VOutcome.skipped, addDir fs (pathJoin fi.destination_dir vid)) := by
  refine ⟨?_, rfl, ?_⟩
  · unfold process_verification
    rw [hid]
    simp only [hdir, hmk, Bool.false_eq_true, if_false, if_true]
    have hfiles : (addDir fs (pathJoin fi.destination_dir vid)).files =
        fs.files := rfl
    rw [hfiles]
    cases hfj : fs.files (pathJoin fi.origin_dir fi.filename) with
    | none => exact Or.inl rfl
    | some b =>
      simp only [hbad b hfj]
      exact Or.inr trivial
  · unfold process_verification
    rw [hid]
    simp [addDir]

/-- C4 witness: concrete record whose bytes fail to parse — the first call
errors and keeps the created directory, the second call skips. -/
theorem c4_witness :
    (process_verification envIdle fsJson fiA =
        (VOutcome.error ErrKind.readFailed, addDir fsJson vdirA) ∨
      process_verification envIdle fsJson fiA =
        (VOutcome.error ErrKind.invalidJson, addDir fsJson vdirA)) ∧
    (addDir fsJson vdirA).files = fsJson.files ∧
    process_verification envIdle (addDir fsJson vdirA) fiA =
      (VOutcome.skipped, addDir fsJson vdirA) :=
  c4_parse_failure_leaves_dir envIdle fsJson fiA ("abc123".data)
    (by decide) rfl rfl (fun _ _ => rfl)

theorem download_url_files_ne (env : Env) (fs : Fs) (u dest p : Str)
    (h : p ≠ dest) :
    ((download_url env fs u dest).2).files p = fs.files p := by
  unfold download_url
  by_cases hf : env.fetchOk u = true
  · rw [if_pos hf]
    exact setFile_files_ne _ _ _ _ h
  · rw [if_neg hf]

theorem download_url_files_self (env : Env) (fs : Fs) (u dest : Str)
    (h : env.fetchOk u = true) :
    ((download_url env fs u dest).2).files dest = some (env.fetchBody u) := by
  unfold download_url
  rw [if_pos h]
  exact setFile_files_self _ _ _

theorem maybeFetch_files_ne (env : Env) (vdir : Str) (acc : Bool × Fs)
    (u : Option Str) (nm p : Str) (h : p ≠ pathJoin vdir nm) :
    ((maybeFetch env vdir acc u nm).2).files p = (acc.2).files p := by
  cases u with
  | none => rfl
  | some url => exact download_url_files_ne env acc.2 url _ p h

theorem processStep_files_pres (env : Env) (vdir : Str) (acc : Bool × Fs)
    (st : Step) (p : Str)
    (h1 : p ≠ pathJoin vdir selfieName) (h2 : p ≠ pathJoin vdir spriteName)
    (h3 : ∀ e, p ≠ pathJoin vdir (videoBase ++ e)) :
    ((processStep env vdir acc st).2).files p = (acc.2).files p := by
  unfold processStep
  cases hsd : st.data with
  | none => rfl
  | some sd =>
    cases hv : sd.videoUrl with
    | none =>
      simp only [hv]
      rw [maybeFetch_files_ne _ _ _ _ _ _ h2, maybeFetch_files_ne _ _ _ _ _ _ h1]
    | some vu =>
      simp only [hv]
      rw [download_url_files_ne _ _ _ _ _ (h3 (videoExt vu))]
      rw [maybeFetch_files_ne _ _ _ _ _ _ h2, maybeFetch_files_ne _ _ _ _ _ _ h1]

theorem foldSteps_files_pres (env : Env) (vdir p : Str)
    (h1 : p ≠ pathJoin vdir selfieName) (h2 : p ≠ pathJoin vdir spriteName)
    (h3 : ∀ e, p ≠ pathJoin vdir (videoBase ++ e)) :
    ∀ (ss : List Step) (acc : Bool × Fs),
      ((ss.foldl (processStep env vdir) acc).2).files p = (acc.2).files p
  | [], _ => rfl
  | st :: rest, acc => by
    rw [List.foldl_cons]
    rw [foldSteps_files_pres env vdir p h1 h2 h3 rest (processStep env vdir acc st)]
    exact processStep_files_pres env vdir acc st p h1 h2 h3

theorem processDoc_files_pres (env : Env) (vdir : Str) (acc : Bool × Fs)
    (doc : Document) (p : Str)
    (h1 : p ≠ pathJoin vdir docFrontName) (h2 : p ≠ pathJoin vdir docBackName) :
    ((processDoc env vdir acc doc).2).files p = (acc.2).files p := by
  unfold processDoc
  cases hp : doc.photos with
  | none => rfl
  | some ps =>
    cases ps with
    | nil => rfl
    | cons p0 rest =>
      cases rest with
      | nil =>
        simp only []
        exact download_url_files_ne _ _ _ _ _ h1
      | cons p1 rest2 =>
        simp only []
        rw [download_url_files_ne _ _ _ _ _ h2]
        exact download_url_files_ne _ _ _ _ _ h1

theorem foldDocs_files_pres (env : Env) (vdir p : Str)
    (h1 : p ≠ pathJoin vdir docFrontName) (h2 : p ≠ pathJoin vdir docBackName) :
    ∀ (ds : List Document) (acc : Bool × Fs),
      ((ds.foldl (processDoc env vdir) acc).2).files p = (acc.2).files p
  | [], _ => rfl
  | doc :: rest, acc => by
    rw [List.foldl_cons]
    rw [foldDocs_files_pres env vdir p h1 h2 rest (processDoc env vdir acc doc)]
    exact processDoc_files_pres env vdir acc doc p h1 h2

theorem dumpJson_files_pres (env : Env) (vdir jp : Str) (acc : Bool × Fs)
    (p : Str) (h : p ≠ pathJoin vdir dataJsonName) :
    ((dumpJson env vdir jp acc).2).files p = (acc.2).files p := by
  unfold dumpJson
  cases hf : acc.2.files jp with
  | none => rfl
  | some bytes2 =>
    simp only []
    cases hp : env.parse bytes2 with
    | error e => rfl
    | ok d2 =>
      simp only []
      by_cases hd : env.dumpOk (pathJoin vdir dataJsonName) = true
      · rw [if_pos hd]
        exact setFile_files_ne _ _ _ _ h
      · rw [if_neg hd]

/-- C8: for a record whose `documents` array holds one entry with a nonempty
`photos` list whose URLs all fetch successfully, the first photo's bytes end
up in `doc_front.jpg`, and `doc_back.jpg` receives the second photo's bytes
when there is a second URL and is otherwise left exactly as it was —
whatever the record's steps are. -/
theorem c8_doc_photo_fanout (env : Env) (fs : Fs) (fi : VFileInfo)
    (vid bytes : Str) (ps : List Str) (ss : Option (List Step))
    (hid : extractId fi.filename = some vid)
    (hdir : fs.dirs (pathJoin fi.destination_dir vid) = false)
    (hmk : env.mkdirOk (pathJoin fi.destination_dir vid) = true)
    (hread : fs.files (pathJoin fi.origin_dir fi.filename) = some bytes)
    (hparse : env.parse bytes =
      Except.ok { documents := some [{ photos := some ps }], steps := ss })
    (hps : ps ≠ [])
    (hfetch : ∀ p ∈ ps, env.fetchOk p = true) :
    ((process_verification env fs fi).2).files
        (pathJoin (pathJoin fi.destination_dir vid) docFrontName) =
      some (env.fetchBody (ps.headD [])) ∧
    ((process_verification env fs fi).2).files
        (pathJoin (pathJoin fi.destination_dir vid) docBackName) =
      (match ps[1]? with
       | some p1 => some (env.fetchBody p1)
       | none => fs.files (pathJoin (pathJoin fi.destination_dir vid) docBackName)) := by
  have hred : process_verification env fs fi =
      assembleRecord env (pathJoin fi.destination_dir vid)
        (pathJoin fi.origin_dir fi.filename)
        (addDir fs (pathJoin fi.destination_dir vid))
        { documents := some [{ photos := some ps }], steps := ss } := by
    unfold process_verification
    rw [hid]
    simp only [hdir, hmk, Bool.false_eq_true, if_false, if_true]
    have hfiles : (addDir fs (pathJoin fi.destination_dir vid)).files =
        fs.files := rfl
    rw [hfiles, hread]
    simp only [hparse]
  rw [hred]
  unfold assembleRecord
  simp only [Option.getD_some, List.foldl_cons, List.foldl_nil]
  have hfb : pathJoin (pathJoin fi.destination_dir vid) docFrontName ≠
      pathJoin (pathJoin fi.destination_dir vid) docBackName :=
    pathJoin_ne _ (by decide) (by decide) (by decide)
  have hfd : pathJoin (pathJoin fi.destination_dir vid) docFrontName ≠
      pathJoin (pathJoin fi.destination_dir vid) dataJsonName :=
    pathJoin_ne _ (by decide) (by decide) (by decide)
  have hbd : pathJoin (pathJoin fi.destination_dir vid) docBackName ≠
      pathJoin (pathJoin fi.destination_dir vid) dataJsonName :=
    pathJoin_ne _ (by decide) (by decide) (by decide)
  have hfs : pathJoin (pathJoin fi.destination_dir vid) docFrontName ≠
      pathJoin (pathJoin fi.destination_dir vid) selfieName :=
    pathJoin_ne _ (by decide) (by decide) (by decide)
  have hfp : pathJoin (pathJoin fi.destination_dir vid) docFrontName ≠
      pathJoin (pathJoin fi.destination_dir vid) spriteName :=
    pathJoin_ne _ (by decide) (by decide) (by decide)
  have hfv : ∀ e, pathJoin (pathJoin fi.destination_dir vid) docFrontName ≠
      pathJoin (pathJoin fi.destination_dir vid) (videoBase ++ e) :=
    fun e => pathJoin_video_ne _ e (by decide) (by decide)
  have hbs : pathJoin (pathJoin fi.destination_dir vid) docBackName ≠
      pathJoin (pathJoin fi.destination_dir vid) selfieName :=
    pathJoin_ne _ (by decide) (by decide) (by decide)
  have hbp : pathJoin (pathJoin fi.destination_dir vid) docBackName ≠
      pathJoin (pathJoin fi.destination_dir vid) spriteName :=
    pathJoin_ne _ (by decide) (by decide) (by decide)
  have hbv : ∀ e, pathJoin (pathJoin fi.destination_dir vid) docBackName ≠
      pathJoin (pathJoin fi.destination_dir vid) (videoBase ++ e) :=
    fun e => pathJoin_video_ne _ e (by decide) (by decide)
  cases ps with
  | nil => exact absurd rfl hps
  | cons p0 rest =>
    have hf0 : env.fetchOk p0 = true := hfetch p0 (List.mem_cons_self _ _)
    cases rest with
    | nil =>
      simp only [processDoc]
      constructor
      · rw [dumpJson_files_pres _ _ _ _ _ hfd,
            foldSteps_files_pres _ _ _ hfs hfp hfv]
        rw [download_url_files_self _ _ _ _ hf0]
        simp
      · rw [dumpJson_files_pres _ _ _ _ _ hbd,
            foldSteps_files_pres _ _ _ hbs hbp hbv]
        rw [download_url_files_ne _ _ _ _ _ (Ne.symm hfb)]
        simp only [List.getElem?_cons_succ, List.getElem?_nil]
        rfl
    | cons p1 rest2 =>
      have hf1 : env.fetchOk p1 = true :=
        hfetch p1 (List.mem_cons_of_mem p0 (List.mem_cons_self _ _))
      simp only [processDoc]
      constructor
      · rw [dumpJson_files_pres _ _ _ _ _ hfd,
            foldSteps_files_pres _ _ _ hfs hfp hfv]
        rw [download_url_files_ne _ _ _ _ _ hfb]
        rw [download_url_files_self _ _ _ _ hf0]
        simp
      · rw [dumpJson_files_pres _ _ _ _ _ hbd,
            foldSteps_files_pres _ _ _ hbs hbp hbv]
        rw [download_url_files_self _ _ _ _ hf1]
        simp

/-- C8 witness: on a concrete record with two photo URLs both files receive
the respective bodies; with one photo URL only `doc_front.jpg` is written
and `doc_back.jpg` stays absent. -/
theorem c8_witness :
    ((process_verification env8 fsJson fiA).2).files (pathJoin vdirA docFrontName) =
      some "http://a/front.jpg".data ∧
    ((process_verification env8 fsJson fiA).2).files (pathJoin vdirA docBackName) =
      some "http://a/back.jpg".data ∧
    ((process_verification env8b fsJson fiA).2).files (pathJoin vdirA docFrontName) =
      some "http://a/front.jpg".data ∧
    ((process_verification env8b fsJson fiA).2).files (pathJoin vdirA docBackName) =
      none := by
  have h2 := c8_doc_photo_fanout env8 fsJson fiA ("abc123".data) bytesA
    ["http://a/front.jpg".data, "http://a/back.jpg".data] none
    (by decide) rfl rfl (by decide) rfl (by decide) (fun _ _ => rfl)
  have h1 := c8_doc_photo_fanout env8b fsJson fiA ("abc123".data) bytesA
    ["http://a/front.jpg".data] none
    (by decide) rfl rfl (by decide) rfl (by decide) (fun _ _ => rfl)
  exact ⟨h2.1, h2.2, h1.1, h1.2⟩

/-- C9: for a record whose steps hold one entry carrying only a `videoUrl`,
the video is written to `video<ext>` where `<ext>` is the `os.path.splitext`
extension of the URL's `urlparse` path component, defaulting to `.mp4` when
that extension is empty; on the spec's examples, a URL ending in `.mov`
yields `video.mov` and an extensionless URL yields `video.mp4`. -/
theorem c9_video_extension (env : Env) (fs : Fs) (fi : VFileInfo)
    (vid bytes u : Str) (ds : Option (List Document))
    (hid : extractId fi.filename = some vid)
    (hdir : fs.dirs (pathJoin fi.destination_dir vid) = false)
    (hmk : env.mkdirOk (pathJoin fi.destination_dir vid) = true)
    (hread : fs.files (pathJoin fi.origin_dir fi.filename) = some bytes)
    (hparse : env.parse bytes = Except.ok
      { documents := ds
      , steps := some
          [{ data := some
              { selfieUrl := none
              , spriteUrl := none
              , videoUrl := some u } }] })
    (hfetch : env.fetchOk u = true) :
    ((process_verification env fs fi).2).files
        (pathJoin (pathJoin fi.destination_dir vid) (videoBase ++ videoExt u)) =
      some (env.fetchBody u) ∧
    videoExt "http://cdn.example.com/clips/a.mov".data = ".mov".data ∧
    videoExt "http://cdn.example.com/clips/raw".data = ".mp4".data := by
  refine ⟨?_, by decide, by decide⟩
  have hred : process_verification env fs fi =
      assembleRecord env (pathJoin fi.destination_dir vid)
        (pathJoin fi.origin_dir fi.filename)
        (addDir fs (pathJoin fi.destination_dir vid))
        { documents := ds
        , steps := some
            [{ data := some
                { selfieUrl := none
                , spriteUrl := none
                , videoUrl := some u } }] } := by
    unfold process_verification
    rw [hid]
    simp only [hdir, hmk, Bool.false_eq_true, if_false, if_true]
    have hfiles : (addDir fs (pathJoin fi.destination_dir vid)).files =
        fs.files := rfl
    rw [hfiles, hread]
    simp only [hparse]
  rw [hred]
  unfold assembleRecord
  simp only [Option.getD_some, List.foldl_cons, List.foldl_nil]
  have hvd : pathJoin (pathJoin fi.destination_dir vid) (videoBase ++ videoExt u) ≠
      pathJoin (pathJoin fi.destination_dir vid) dataJsonName :=
    Ne.symm (pathJoin_video_ne _ _ (by decide) (by decide))
  rw [dumpJson_files_pres _ _ _ _ _ hvd]
  simp only [processStep, maybeFetch]
  exact download_url_files_self _ _ _ _ hfetch

/-- C9 witness: concrete `.mov` video record — the bytes land in
`video.mov`, plus the two concrete extension computations. -/
theorem c9_witness :
    ((process_verification env9 fsJson fiA).2).files
        (pathJoin vdirA ("video.mov".data)) =
      some "http://cdn.example.com/clips/a.mov".data ∧
    videoExt "http://cdn.example.com/clips/a.mov".data = ".mov".data ∧
    videoExt "http://cdn.example.com/clips/raw".data = ".mp4".data :=
  c9_video_extension env9 fsJson fiA ("abc123".data) bytesA
    ("http://cdn.example.com/clips/a.mov".data) none
    (by decide) rfl rfl (by decide) rfl rfl

/-- C10: when a record has two document entries with one photo each and two
step entries both carrying a `selfieUrl`, all four fetches succeeding, each
entry targets the same fixed path — so `doc_front.jpg` ends up holding the
second document's bytes and `selfie.jpg` the second step's bytes: a later
entry overwrites an earlier one and only the last bytes persist. -/
theorem c10_same_path_overwrite (env : Env) (fs : Fs) (fi : VFileInfo)
    (vid bytes u1 u2 s1 s2 : Str)
    (hid : extractId fi.filename = some vid)
    (hdir : fs.dirs (pathJoin fi.destination_dir vid) = false)
    (hmk : env.mkdirOk (pathJoin fi.destination_dir vid) = true)
    (hread : fs.files (pathJoin fi.origin_dir fi.filename) = some bytes)
    (hparse : env.parse bytes = Except.ok
      { documents := some [{ photos := some [u1] }, { photos := some [u2] }]
      , steps := some
          [{ data := some { selfieUrl := some s1, spriteUrl := none, videoUrl := none } },
           { data := some { selfieUrl := some s2, spriteUrl := none, videoUrl := none } }] })
    (_hu1 : env.fetchOk u1 = true) (hu2 : env.fetchOk u2 = true)
    (_hs1 : env.fetchOk s1 = true) (hs2 : env.fetchOk s2 = true) :
    ((process_verification env fs fi).2).files
        (pathJoin (pathJoin fi.destination_dir vid) docFrontName) =
      some (env.fetchBody u2) ∧
    ((process_verification env fs fi).2).files
        (pathJoin (pathJoin fi.destination_dir vid) selfieName) =
      some (env.fetchBody s2) := by
  have hred : process_verification env fs fi =
      assembleRecord env (pathJoin fi.destination_dir vid)
        (pathJoin fi.origin_dir fi.filename)
        (addDir fs (pathJoin fi.destination_dir vid))
        { documents := some [{ photos := some [u1] }, { photos := some [u2] }]
        , steps := some
            [{ data := some { selfieUrl := some s1, spriteUrl := none, videoUrl := none } },
             { data := some { selfieUrl := some s2, spriteUrl := none, videoUrl := none } }] } := by
    unfold process_verification
    rw [hid]
    simp only [hdir, hmk, Bool.false_eq_true, if_false, if_true]
    have hfiles : (addDir fs (pathJoin fi.destination_dir vid)).files =
        fs.files := rfl
    rw [hfiles, hread]
    simp only [hparse]
  rw [hred]
  unfold assembleRecord
  simp only [Option.getD_some, List.foldl_cons, List.foldl_nil]
  have hfd : pathJoin (pathJoin fi.destination_dir vid) docFrontName ≠
      pathJoin (pathJoin fi.destination_dir vid) dataJsonName :=
    pathJoin_ne _ (by decide) (by decide) (by decide)
  have hsd : pathJoin (pathJoin fi.destination_dir vid) selfieName ≠
      pathJoin (pathJoin fi.destination_dir vid) dataJsonName :=
    pathJoin_ne _ (by decide) (by decide) (by decide)
  have hfs : pathJoin (pathJoin fi.destination_dir vid) docFrontName ≠
      pathJoin (pathJoin fi.destination_dir vid) selfieName :=
    pathJoin_ne _ (by decide) (by decide) (by decide)
  have hfp : pathJoin (pathJoin fi.destination_dir vid) docFrontName ≠
      pathJoin (pathJoin fi.destination_dir vid) spriteName :=
    pathJoin_ne _ (by decide) (by decide) (by decide)
  have hfv : ∀ e, pathJoin (pathJoin fi.destination_dir vid) docFrontName ≠
      pathJoin (pathJoin fi.destination_dir vid) (videoBase ++ e) :=
    fun e => pathJoin_video_ne _ e (by decide) (by decide)
  constructor
  · rw [dumpJson_files_pres _ _ _ _ _ hfd]
    rw [processStep_files_pres _ _ _ _ _ hfs hfp hfv]
    rw [processStep_files_pres _ _ _ _ _ hfs hfp hfv]
    simp only [processDoc]
    exact download_url_files_self _ _ _ _ hu2
  · rw [dumpJson_files_pres _ _ _ _ _ hsd]
    simp only [processStep, maybeFetch]
    exact download_url_files_self _ _ _ _ hs2

/-- C10 witness: concrete duplicate-entry record — the persisting bytes are
those of the second document photo and of the second selfie. -/
theorem c10_witness :
    ((process_verification env10 fsJson fiA).2).files
        (pathJoin vdirA docFrontName) = some "http://a/d2.jpg".data ∧
    ((process_verification env10 fsJson fiA).2).files
        (pathJoin vdirA selfieName) = some "http://a/s2.jpg".data :=
  c10_same_path_overwrite env10 fsJson fiA ("abc123".data) bytesA
    ("http://a/d1.jpg".data) ("http://a/d2.jpg".data)
    ("http://a/s1.jpg".data) ("http://a/s2.jpg".data)
    (by decide) rfl rfl (by decide) rfl rfl rfl rfl rfl

/-- C2 counterexample: a task whose local target pre-exists, run in a worker
whose S3 client is not yet cached (the state of a worker's first task),
returns the skipped result but does issue a remote call: the STS
`assume_role` exchange of the client construction, which the source performs
before the existence check — so "no remote call of any kind" fails. -/
theorem c2_counterexample :
    (download_file envD6 filesX fiS).1 =
      Except.ok (DResult.skipped (pathJoin "origin".data "x.json".data)) ∧
    (download_file envD6 filesX fiS).2.2 = [DEvent.assumeRole] :=
  ⟨rfl, rfl⟩

/-- C2 amended: when the derived local path already exists and the shared
client is available (already cached, or constructible), the worker returns
the skipped result, leaves every byte of the landing zone unchanged, and
issues no S3 object fetch — though the client acquisition itself may still
issue the credential-exchange call (see the counterexample), so only object
fetches, not remote calls of any kind, are excluded. -/
theorem c2_preexisting_path_skips (env : DEnv) (files : DFiles)
    (fi : SFileInfo) (k b o : Str)
    (hcl : env.clientCached = true ∨ env.clientOk = true)
    (hk : fi.key = some k) (hb : fi.bucket = some b) (ho : fi.origin_dir = some o)
    (hbn : basename k ≠ [])
    (hex : (files (pathJoin o (basename k))).isSome = true) :
    (download_file env files fi).1 =
      Except.ok (DResult.skipped (pathJoin o (basename k))) ∧
    (download_file env files fi).2.1 = files ∧
    (DEvent.getObject k (pathJoin o (basename k)) ∉ (download_file env files fi).2.2) := by
  have hguard : ¬(env.clientCached = false ∧ env.clientOk = false) := by
    rcases hcl with h | h <;> simp [h]
  unfold download_file
  rw [if_neg hguard, hk, hb, ho]
  simp only [if_neg hbn, hex, if_true]
  refine ⟨trivial, trivial, ?_⟩
  cases hc : env.clientCached <;> simp

/-- C2 witness: with a cached client, the pre-existing `origin/x.json` task
skips, the landing zone is returned unchanged, and no remote event at all is
recorded. -/
theorem c2_witness :
    (download_file envD2c filesX fiS).1 =
      Except.ok (DResult.skipped (pathJoin "origin".data "x.json".data)) ∧
    (download_file envD2c filesX fiS).2.1 = filesX :=
  ⟨(c2_preexisting_path_skips envD2c filesX fiS ("data/x.json".data)
      ("bkt".data) ("origin".data) (Or.inl rfl) rfl rfl rfl (by decide)
      (by decide)).1,
   (c2_preexisting_path_skips envD2c filesX fiS ("data/x.json".data)
      ("bkt".data) ("origin".data) (Or.inl rfl) rfl rfl rfl (by decide)
      (by decide)).2.1⟩

/-- C5: evaluated at a well-formed task in a worker whose client
construction fails — the claim's client-acquisition failure — the unit does
not return a result dictionary: the `except` handler itself evaluates the
unbound `file_key`, the resulting `UnboundLocalError` escapes
`download_file`, and `pool.map` re-raises it, aborting the collection for
every sibling task. -/
theorem c5_client_failure_escapes :
    (download_file envD5 filesNone fiS).1 = Except.error PyExn.unboundLocal ∧
    poolMap envD5 filesNone [fiS] = Except.error PyExn.unboundLocal :=
  ⟨rfl, rfl⟩

theorem download_file_runs (env : DEnv) (files : DFiles) (fi : SFileInfo)
    (k : Str)
    (hcl : env.clientCached = true ∨ env.clientOk = true)
    (hk : fi.key = some k) (hb : fi.bucket.isSome = true)
    (ho : fi.origin_dir.isSome = true) :
    ∃ r, (download_file env files fi).1 = .ok r ∧
      (isPyNone r = true ↔ basename k = []) := by
  have hguard : ¬(env.clientCached = false ∧ env.clientOk = false) := by
    rcases hcl with h | h <;> simp [h]
  obtain ⟨b, hbv⟩ := Option.isSome_iff_exists.mp hb
  obtain ⟨o, hov⟩ := Option.isSome_iff_exists.mp ho
  unfold download_file
  rw [if_neg hguard, hk, hbv, hov]
  by_cases hbn : basename k = []
  · refine ⟨.pyNone, ?_, ?_⟩
    · simp [hbn]
    · simp [isPyNone, hbn]
  · simp only [if_neg hbn]
    by_cases hex : (files (pathJoin o (basename k))).isSome = true
    · refine ⟨.skipped (pathJoin o (basename k)), ?_, ?_⟩
      · simp [hex]
      · simp [isPyNone, hbn]
    · by_cases hs3 : env.s3Ok b k = true
      · refine ⟨.downloaded (pathJoin o (basename k)), ?_, ?_⟩
        · simp [hex, hs3]
        · simp [isPyNone, hbn]
      · refine ⟨.errorRes (pathJoin o (basename k)), ?_, ?_⟩
        · simp [hex, hs3]
        · simp [isPyNone, hbn]

/-- C6: when the shared client is available, `pool.map` yields exactly one
result per well-formed task, and the collection loop drops exactly the
`None`s of tasks whose key's basename is empty — so the aggregated results
are in one-to-one correspondence with the tasks whose derived local filename
is non-empty, and directory-placeholder tasks contribute nothing. -/
theorem c6_result_cardinality (env : DEnv) (files : DFiles)
    (fis : List SFileInfo)
    (hcl : env.clientCached = true ∨ env.clientOk = true)
    (hwf : ∀ fi ∈ fis, fi.key.isSome = true ∧ fi.bucket.isSome = true ∧
      fi.origin_dir.isSome = true) :
    ∃ rs, poolMap env files fis = .ok rs ∧ rs.length = fis.length ∧
      (collectResults rs).length =
        (fis.filter fun fi => !(basename (fi.key.getD [])).isEmpty).length := by
  induction fis with
  | nil => exact ⟨[], rfl, rfl, rfl⟩
  | cons fi rest ih =>
    obtain ⟨hks, hbs, hos⟩ := hwf fi (List.mem_cons_self _ _)
    obtain ⟨k, hk⟩ := Option.isSome_iff_exists.mp hks
    obtain ⟨r, hr, hiff⟩ := download_file_runs env files fi k hcl hk hbs hos
    obtain ⟨rs, hrs, hlen, hcol⟩ := ih (fun x hx => hwf x (List.mem_cons_of_mem _ hx))
    refine ⟨r :: rs, ?_, ?_, ?_⟩
    · unfold poolMap
      rw [hr, hrs]
    · simp [hlen]
    · rw [List.filter_cons]
      have hgd : fi.key.getD [] = k := by rw [hk]; rfl
      rw [hgd]
      by_cases hbn : basename k = []
      · have hpy : isPyNone r = true := hiff.mpr hbn
        have hpred : (!(basename k).isEmpty) = false := by
          rw [hbn]; rfl
        rw [hpred]
        simp only [if_false, Bool.false_eq_true]
        unfold collectResults
        rw [List.filter_cons]
        simp only [hpy, Bool.not_true, Bool.false_eq_true, if_false]
        exact hcol
      · have hpy : isPyNone r = false := by
          cases hpv : isPyNone r
          · rfl
          · exact absurd (hiff.mp hpv) hbn
        have hpred : (!(basename k).isEmpty) = true := by
          cases hbe : (basename k).isEmpty
          · rfl
          · exact absurd (List.isEmpty_iff.mp hbe) hbn
        rw [hpred]
        simp only [if_true]
        unfold collectResults
        rw [List.filter_cons]
        simp only [hpy, Bool.not_false, if_true]
        simp only [List.length_cons]
        exact congrArg (· + 1) hcol

/-- C6 witness: a concrete three-task batch whose middle task is a directory
placeholder yields three map results, and the collection keeps exactly the
two with non-empty derived filenames. -/
theorem c6_witness :
    poolMap envD6 filesNone fisW = Except.ok rsW ∧
    rsW.length = fisW.length ∧
    (collectResults rsW).length =
      (fisW.filter fun fi => !(basename (fi.key.getD [])).isEmpty).length := by
  obtain ⟨rs, h1, h2, h3⟩ := c6_result_cardinality envD6 filesNone fisW
    (Or.inr rfl) (by decide)
  have h0 : poolMap envD6 filesNone fisW = Except.ok rsW := rfl
  rw [h0] at h1
  have hrs : rsW = rs := Except.ok.inj h1
  subst hrs
  exact ⟨h0, h2, h3⟩

theorem chunks_join (ps : Nat) : ∀ l : List Str, (chunks ps l).flatten = l
  | [] => by simp [chunks]
  | x :: xs => by
    rw [chunks]
    simp only [List.flatten_cons]
    rw [chunks_join ps (xs.drop (ps - 1))]
    simp [List.cons_append, List.take_append_drop]
termination_by l => l.length
decreasing_by
  simp only [List.length_cons, List.length_drop]
  omega

theorem collectLoop_neg_one : ∀ (pages : List (List Str)) (acc : List Str),
    collectLoop (-1) acc pages = acc ++ pages.flatten
  | [], acc => by simp [collectLoop]
  | page :: rest, acc => by
    simp only [collectLoop, List.flatten_cons]
    have hc : ¬((-1 : Int) ≠ -1 ∧ (-1 : Int) ≤ ((acc ++ page).length : Int)) := by
      simp
    rw [if_neg hc]
    rw [collectLoop_neg_one rest (acc ++ page)]
    simp [List.append_assoc]

theorem collectLoop_len (n : Int) (hn : 0 ≤ n) :
    ∀ (pages : List (List Str)) (acc : List Str), acc.length ≤ n.toNat →
      (collectLoop n acc pages).length = min (acc.length + pages.flatten.length) n.toNat
  | [], acc, hacc => by
    simp only [collectLoop, List.flatten_nil, List.length_nil, Nat.add_zero]
    omega
  | page :: rest, acc, hacc => by
    simp only [collectLoop, List.flatten_cons]
    by_cases hc : n ≠ -1 ∧ n ≤ ((acc ++ page).length : Int)
    · rw [if_pos hc]
      have h2 : n.toNat ≤ (acc ++ page).length := by omega
      simp only [List.length_take, List.length_append] at h2 ⊢
      omega
    · rw [if_neg hc]
      have hlt : ((acc ++ page).length : Int) < n := by
        rcases not_and_or.mp hc with h | h
        · exact absurd (by omega) h
        · omega
      have hle : (acc ++ page).length ≤ n.toNat := by omega
      rw [collectLoop_len n hn rest (acc ++ page) hle]
      simp only [List.length_append]
      omega

/-- C7: with a non-negative bound `n` over a namespace holding at least `n`
keys, the listing stage collects exactly `n` descriptors (the final page
truncated as needed); with the sentinel `-1`, every key in the namespace is
collected — for any page size. -/
theorem c7_listing_limit (objs : List Str) (n : Int) (pageSize : Nat) :
    (0 ≤ n → n.toNat ≤ objs.length →
      (collectAllFiles objs n pageSize).length = n.toNat) ∧
    (n = -1 → (collectAllFiles objs n pageSize).length = objs.length) := by
  constructor
  · intro hn hlen
    have hne : n ≠ -1 := by omega
    unfold collectAllFiles
    rw [if_neg hne]
    rw [collectLoop_len n hn _ [] (by simp)]
    rw [chunks_join]
    simp only [List.length_nil, Nat.zero_add, List.length_take]
    omega
  · intro hn
    subst hn
    unfold collectAllFiles
    rw [if_pos rfl]
    rw [collectLoop_neg_one]
    rw [chunks_join]
    simp

/-- C7 witness: a 12-key namespace listed with limit 5 yields exactly 5
descriptors, and with the sentinel -1 all 12. -/
theorem c7_witness :
    (collectAllFiles objs12 5 1000).length = 5 ∧
    (collectAllFiles objs12 (-1) 1000).length = 12 := by
  constructor
  · exact (c7_listing_limit objs12 5 1000).1 (by decide) (by decide)
  · have h := (c7_listing_limit objs12 (-1) 1000).2 rfl
    simpa using h

end Exodus
